import Mathlib

/-!
Verification of the market-data capture script (src/app.py) against its
specification. The script fetches OHLCV candles from a trading terminal,
merges them into per-instrument series stored in a spreadsheet workbook,
and rebuilds an Overview report plus a cross-instrument Summary table.

The embedding below translates the relevant Python functions into Lean:
dataframes become lists of records, the workbook becomes an explicit
state record, timestamps become natural numbers (a discrete key),
prices become rationals, and the MetaTrader 5 terminal becomes an
explicit environment describing what each of its calls would return.
-/

/-- Candle record: one row of the dataframe produced by
`fetch_market_data` (src/app.py lines 72-82), including the derived
columns `range`, `daily_change`, `daily_change_pct` added at lines 76-78.
The Python column `open` is named `open_` because `open` is a Lean
keyword. -/
structure Candle where
  time : Nat
  open_ : Rat
  high : Rat
  low : Rat
  close : Rat
  range : Rat
  daily_change : Rat
  daily_change_pct : Rat
  tick_volume : Int
  spread : Int
  real_volume : Int
deriving Repr, DecidableEq

/-- Times of a list of candles, in order (the `time` column). -/
def timesOf (l : List Candle) : List Nat := l.map Candle.time

/-- Boolean comparison used by `df.sort_values("time")`: ascending order
on the `time` column. -/
def timeLE (a b : Candle) : Bool := decide (a.time ≤ b.time)

/-- Model of `df.sort_values("time")` (src/app.py line 106 and line 232):
a stable sort ascending by the `time` column. -/
def sort_values_time (l : List Candle) : List Candle := l.mergeSort timeLE

/-- Worker for `drop_duplicates(subset=["time"])`: pandas keeps the first
occurrence of each duplicated key (the default `keep="first"`), so we walk
the list front to back remembering the `time` keys already seen. -/
def dedup_aux : List Candle → List Nat → List Candle
  | [], _ => []
  | c :: rest, seen =>
    if c.time ∈ seen then dedup_aux rest seen
    else c :: dedup_aux rest (c.time :: seen)

/-- Model of `.drop_duplicates(subset=["time"])` (src/app.py line 104):
keep the first row for each distinct `time`. -/
def drop_duplicates_by_time (l : List Candle) : List Candle := dedup_aux l []

/-- Model of the merge performed by `append_data_to_sheet` when the data
sheet already exists (src/app.py lines 103-106):
`pd.concat([existing_df, df]).drop_duplicates(subset=["time"])` followed by
`df.sort_values("time")`. Note the concatenation puts the existing rows
first, so `drop_duplicates` keeps the existing row when a `time` occurs in
both inputs. -/
def merge (existing incoming : List Candle) : List Candle :=
  sort_values_time (drop_duplicates_by_time (existing ++ incoming))

/-- Strictly ascending in the `time` column. -/
def strictlyAscending (l : List Candle) : Prop :=
  List.Pairwise (fun a b => a.time < b.time) l

-- ### Basic lemmas about the dedup pass

theorem dedup_aux_subset {l : List Candle} {seen : List Nat} {c : Candle}
    (h : c ∈ dedup_aux l seen) : c ∈ l := by
  induction l generalizing seen with
  | nil => simp [dedup_aux] at h
  | cons x rest ih =>
    simp only [dedup_aux] at h
    by_cases hx : x.time ∈ seen
    · simp [hx] at h
      exact List.mem_cons_of_mem x (ih h)
    · simp [hx] at h
      rcases h with h | h
      · simp [h]
      · exact List.mem_cons_of_mem x (ih h)

theorem dedup_aux_not_seen {l : List Candle} {seen : List Nat} {c : Candle}
    (h : c ∈ dedup_aux l seen) : c.time ∉ seen := by
  induction l generalizing seen with
  | nil => simp [dedup_aux] at h
  | cons x rest ih =>
    simp only [dedup_aux] at h
    by_cases hx : x.time ∈ seen
    · simp [hx] at h
      exact ih h
    · simp [hx] at h
      rcases h with h | h
      · simpa [h] using hx
      · intro hc
        exact ih h (List.mem_cons_of_mem _ hc)

theorem dedup_aux_times_mem {l : List Candle} {seen : List Nat} {t : Nat} :
    t ∈ timesOf (dedup_aux l seen) ↔ t ∈ timesOf l ∧ t ∉ seen := by
  induction l generalizing seen with
  | nil => simp [dedup_aux, timesOf]
  | cons x rest ih =>
    by_cases hx : x.time ∈ seen
    · simp only [dedup_aux, hx, if_true]
      rw [ih]
      simp only [timesOf, List.map_cons, List.mem_cons]
      constructor
      · rintro ⟨h1, h2⟩
        exact ⟨Or.inr h1, h2⟩
      · rintro ⟨h1 | h1, h2⟩
        · exact absurd (h1 ▸ hx) h2
        · exact ⟨h1, h2⟩
    · simp only [dedup_aux, hx, if_false]
      simp only [timesOf, List.map_cons, List.mem_cons] at *
      rw [ih]
      constructor
      · rintro (h | ⟨h1, h2⟩)
        · exact ⟨Or.inl h, h ▸ hx⟩
        · refine ⟨Or.inr h1, fun hc => h2 (List.mem_cons_of_mem _ hc)⟩
      · rintro ⟨h1 | h1, h2⟩
        · exact Or.inl h1
        · by_cases ht : t = x.time
          · exact Or.inl ht
          · exact Or.inr ⟨h1, by simp [ht, h2]⟩

theorem dedup_aux_times_nodup (l : List Candle) (seen : List Nat) :
    (timesOf (dedup_aux l seen)).Nodup := by
  induction l generalizing seen with
  | nil => simp [dedup_aux, timesOf]
  | cons x rest ih =>
    by_cases hx : x.time ∈ seen
    · simpa [dedup_aux, hx] using ih seen
    · simp only [dedup_aux, hx, if_false, timesOf, List.map_cons]
      refine List.nodup_cons.mpr ⟨?_, ih (x.time :: seen)⟩
      intro hc
      have := (@dedup_aux_times_mem rest (x.time :: seen) _).mp hc
      exact this.2 (List.mem_cons_self _ _)

theorem dedup_aux_keeps_first {l : List Candle} {seen : List Nat} {c : Candle}
    (h : c ∈ dedup_aux l seen) :
    l.find? (fun d => decide (d.time = c.time)) = some c := by
  induction l generalizing seen with
  | nil => simp [dedup_aux] at h
  | cons x rest ih =>
    simp only [dedup_aux] at h
    by_cases hx : x.time ∈ seen
    · simp only [hx, if_true] at h
      have hcs : c.time ∉ seen := dedup_aux_not_seen h
      have hne : x.time ≠ c.time := fun he => hcs (he ▸ hx)
      rw [List.find?_cons_of_neg _ (by simpa using hne)]
      exact ih h
    · simp only [hx, if_false, List.mem_cons] at h
      rcases h with h | h
      · subst h
        exact List.find?_cons_of_pos _ (by simp)
      · have hcs : c.time ∉ x.time :: seen := dedup_aux_not_seen h
        have hne : x.time ≠ c.time := by
          intro he
          exact hcs (he ▸ List.mem_cons_self _ _)
        rw [List.find?_cons_of_neg _ (by simpa using hne)]
        exact ih h

/-- When the `time` keys are already distinct, the dedup pass is the
identity. -/
theorem dedup_aux_eq_self {l : List Candle} {seen : List Nat}
    (hnd : (timesOf l).Nodup) (hdisj : ∀ c ∈ l, c.time ∉ seen) :
    dedup_aux l seen = l := by
  induction l generalizing seen with
  | nil => simp [dedup_aux]
  | cons x rest ih =>
    have hx : x.time ∉ seen := hdisj x (List.mem_cons_self _ _)
    simp only [dedup_aux, hx, if_false]
    simp only [timesOf, List.map_cons, List.nodup_cons] at hnd
    congr 1
    refine ih hnd.2 ?_
    intro c hc hmem
    rcases List.mem_cons.mp hmem with he | hs
    · exact hnd.1 (he ▸ List.mem_map_of_mem Candle.time hc)
    · exact hdisj c (List.mem_cons_of_mem _ hc) hs

-- ### Sorting lemmas

theorem timeLE_trans (a b c : Candle) (h1 : timeLE a b = true)
    (h2 : timeLE b c = true) : timeLE a c = true := by
  simp only [timeLE, decide_eq_true_eq] at *
  omega

theorem timeLE_total (a b : Candle) : (timeLE a b || timeLE b a) = true := by
  simp only [timeLE, Bool.or_eq_true, decide_eq_true_eq]
  omega

theorem sort_values_time_perm (l : List Candle) :
    (sort_values_time l).Perm l := List.mergeSort_perm l timeLE

theorem sort_values_time_sorted (l : List Candle) :
    List.Pairwise (fun a b : Candle => a.time ≤ b.time) (sort_values_time l) := by
  have := List.sorted_mergeSort timeLE_trans timeLE_total l
  refine this.imp ?_
  intro a b h
  simpa [timeLE] using h

theorem strict_of_le_of_times_nodup {l : List Candle}
    (hle : List.Pairwise (fun a b : Candle => a.time ≤ b.time) l)
    (hnd : (timesOf l).Nodup) : strictlyAscending l := by
  have hne : List.Pairwise (fun a b : Candle => a.time ≠ b.time) l := by
    simpa [timesOf, List.Nodup, List.pairwise_map] using hnd
  have := hle.and hne
  refine this.imp ?_
  rintro a b ⟨h1, h2⟩
  omega

theorem times_nodup_of_strict {l : List Candle} (h : strictlyAscending l) :
    (timesOf l).Nodup := by
  rw [timesOf, List.Nodup, List.pairwise_map]
  refine h.imp ?_
  intro a b hlt
  omega

/-- A list that is already strictly ascending by time is left unchanged by
the sort. -/
theorem sort_values_time_of_sorted {l : List Candle}
    (h : strictlyAscending l) : sort_values_time l = l := by
  refine List.mergeSort_of_sorted ?_
  refine h.imp ?_
  intro a b hlt
  simp only [timeLE, decide_eq_true_eq]
  omega

-- ### Workbook model

/-- One row of the `Tickers` registry sheet. Each field is `Option`
because a blank spreadsheet cell is read by pandas as missing (NaN) and
by openpyxl as `None`. Columns: Ticker, Description, Status (only in
workbooks that have a `Status` column), Last Updated. -/
structure TickerRow where
  ticker : Option String
  description : Option String
  status : Option String
  lastUpdated : Option String
deriving Repr, DecidableEq

/-- The `Tickers` registry sheet as read by pandas: its rows plus whether
a `Status` column is present (src/app.py line 153 checks for it). -/
structure TickersTable where
  hasStatusColumn : Bool
  rows : List TickerRow
deriving Repr, DecidableEq

/-- Price-change record stored in the `price_changes` dict by
`update_overview_sheet` (src/app.py lines 240-245). -/
structure PriceChange where
  first_close : Rat
  last_close : Rat
  change : Rat
  change_pct : Rat
deriving Repr, DecidableEq

/-- One data row of the Summary table (src/app.py lines 348-357). The
last column holds `change_pct / 100` because the code writes
`data["change_pct"]/100` with a percentage number format. -/
structure SummaryRow where
  ticker : String
  start_price : Rat
  current_price : Rat
  change : Rat
  change_pct_display : Rat
deriving Repr, DecidableEq

/-- Contents of the `Summary` sheet: the timestamp written at row 2 and
the ranked table written from row 6 on (empty right after workbook
creation, before any overview run has populated it). -/
structure SummaryContent where
  lastUpdated : String
  table : List SummaryRow
deriving Repr, DecidableEq

/-- One per-ticker section of the `Overview` sheet: the bold
`Ticker: <ticker>` label followed by the windowed data table. -/
structure OverviewSection where
  ticker : String
  rows : List Candle
deriving Repr, DecidableEq

/-- Contents of the `Overview` sheet, rebuilt from scratch on every run
(src/app.py lines 200-203 delete and recreate it). -/
structure OverviewContent where
  days : Nat
  generatedAt : String
  sections : List OverviewSection
deriving Repr, DecidableEq

/-- The workbook file state. `exists_` models `os.path.exists(file_path)`;
a sheet field equal to `none` means the sheet is absent from
`book.sheetnames`. Data sheets are an association list from sheet name
(`"<ticker> Data"`) to the stored series. -/
structure Workbook where
  exists_ : Bool
  tickersSheet : Option TickersTable
  dataSheets : List (String × List Candle)
  overview : Option OverviewContent
  summary : Option SummaryContent
deriving Repr, DecidableEq

/-- Look a sheet up by name in the data-sheet association list
(models `sheet_name in book.sheetnames` plus the subsequent read). -/
def lookupSheet (name : String) : List (String × List Candle) → Option (List Candle)
  | [] => none
  | (n, s) :: rest => if n = name then some s else lookupSheet name rest

/-- Replace a sheet in place, or append it when absent (models
`df.to_excel(writer, sheet_name=...)` with `if_sheet_exists="replace"`). -/
def setSheet (name : String) (content : List Candle) :
    List (String × List Candle) → List (String × List Candle)
  | [] => [(name, content)]
  | (n, s) :: rest =>
    if n = name then (n, content) :: rest
    else (n, s) :: setSheet name content rest

/-- Model of `append_data_to_sheet` (src/app.py lines 91-115). An empty
incoming dataframe returns immediately at lines 93-95 without touching
the file. Otherwise, when the file and the sheet exist, the incoming rows
are merged with the existing rows (lines 100-106); when the file exists
but the sheet does not, the incoming rows are only sorted; when the file
does not exist, `pd.ExcelWriter(..., mode="w")` creates a fresh workbook
containing only this data sheet. -/
def append_data_to_sheet (df : List Candle) (ticker : String) (wb : Workbook) : Workbook :=
  if df = [] then wb
  else
    let sheetName := ticker ++ " Data"
    if wb.exists_ then
      let merged :=
        match lookupSheet sheetName wb.dataSheets with
        | some existing => merge existing df
        | none => sort_values_time df
      { wb with dataSheets := setSheet sheetName merged wb.dataSheets }
    else
      { exists_ := true, tickersSheet := none,
        dataSheets := [(sheetName, sort_values_time df)],
        overview := none, summary := none }

/-- Model of `ensure_workbook_exists` (src/app.py lines 117-146): when the
file is absent, create it with a `Tickers` sheet holding the header and
one default row (no `Status` column) and a `Summary` sheet holding only
the title and timestamp; when the file exists, do nothing. -/
def ensure_workbook_exists (wb : Workbook) (defaultTicker now : String) : Workbook :=
  if wb.exists_ then wb
  else
    { exists_ := true,
      tickersSheet := some
        { hasStatusColumn := false,
          rows := [{ ticker := some defaultTicker,
                     description := some "Gold vs USD",
                     status := none,
                     lastUpdated := some now }] },
      dataSheets := [],
      overview := none,
      summary := some { lastUpdated := now, table := [] } }

/-- Model of `read_tickers` (src/app.py lines 148-163). With a `Status`
column, keep the rows whose status cell equals the exact string
`"Active"`, project the `Ticker` column and drop missing cells
(`dropna`); without one, project the `Ticker` column and drop missing
cells. -/
def read_tickers (t : TickersTable) : List String :=
  if t.hasStatusColumn then
    (t.rows.filter (fun r => r.status = some "Active")).filterMap TickerRow.ticker
  else
    t.rows.filterMap TickerRow.ticker

/-- Worker for `update_ticker_status`: find the first row whose first
column equals the ticker (src/app.py lines 172-176); if found, refresh
its timestamp and fill the description only when one was supplied and the
cell is empty (lines 178-182); otherwise append a new row (lines
183-188). -/
def upd_ticker_rows (ticker desc now : String) : List TickerRow → List TickerRow
  | [] => [{ ticker := some ticker, description := some desc,
             status := none, lastUpdated := some now }]
  | r :: rest =>
    if r.ticker = some ticker then
      { r with
        lastUpdated := some now
        description :=
          if desc ≠ "" ∧ (r.description = none ∨ r.description = some "")
          then some desc else r.description } :: rest
    else r :: upd_ticker_rows ticker desc now rest

/-- Model of `update_ticker_status` (src/app.py lines 165-193). When the
workbook has no `Tickers` sheet the sheet access raises and the exception
is caught at line 192, leaving the file untouched. -/
def update_ticker_status (ticker : String) (wb : Workbook) (now desc : String) : Workbook :=
  match wb.tickersSheet with
  | none => wb
  | some t =>
    { wb with tickersSheet := some { t with rows := upd_ticker_rows ticker desc now t.rows } }

-- ### Overview and summary construction

/-- Model of `df.tail(days)` for a nonnegative count: the last `days`
rows. -/
def tail_n (df : List Candle) (n : Nat) : List Candle := df.drop (df.length - n)

/-- Model of the window taken at src/app.py line 232:
`df.sort_values("time").tail(days)`. -/
def overview_window (df : List Candle) (days : Nat) : List Candle :=
  tail_n (sort_values_time df) days

/-- Model of src/app.py lines 235-245: when the window has more than one
row, build the price-change record from the first row (`df.iloc[0]`) and
the last row (`df.iloc[-1]`) of the window; otherwise record nothing. -/
def compute_price_change : List Candle → Option PriceChange
  | [] => none
  | [_] => none
  | c :: d :: rest =>
    let lastc := (d :: rest).getLast (List.cons_ne_nil d rest)
    some { first_close := c.close,
           last_close := lastc.close,
           change := lastc.close - c.close,
           change_pct := (lastc.close - c.close) / c.close * 100 }

/-- Python-dict insertion: assigning to an existing key replaces its value
in place, preserving the original insertion position; a new key is
appended at the end. -/
def dict_insert (k : String) (v : PriceChange) :
    List (String × PriceChange) → List (String × PriceChange)
  | [] => [(k, v)]
  | (k2, v2) :: rest =>
    if k2 = k then (k2, v) :: rest
    else (k2, v2) :: dict_insert k v rest

/-- Accumulator for the per-ticker loop of `update_overview_sheet`:
the Overview sections written so far and the `price_changes` dict. -/
structure OvAcc where
  sections : List OverviewSection
  changes : List (String × PriceChange)
deriving Repr, DecidableEq

/-- One iteration of the ticker loop in `update_overview_sheet`
(src/app.py lines 220-325): skip a ticker with no data sheet (line 222)
or an empty sheet (line 228); otherwise take the trailing window, record
a price change when the window has more than one row, and append the
ticker section to the Overview. -/
def overview_step (wb : Workbook) (days : Nat) (acc : OvAcc) (ticker : String) : OvAcc :=
  match lookupSheet (ticker ++ " Data") wb.dataSheets with
  | none => acc
  | some df =>
    if df = [] then acc
    else
      let w := overview_window df days
      let changes2 :=
        match compute_price_change w with
        | some pc => dict_insert ticker pc acc.changes
        | none => acc.changes
      { sections := acc.sections ++ [{ ticker := ticker, rows := w }],
        changes := changes2 }

/-- The whole ticker loop of `update_overview_sheet`. -/
def collect_overview (wb : Workbook) (tickers : List String) (days : Nat) : OvAcc :=
  tickers.foldl (overview_step wb days) { sections := [], changes := [] }

/-- The `price_changes` dict accumulated by `update_overview_sheet` for a
given workbook, ticker list, and window size. -/
def price_changes_of (wb : Workbook) (tickers : List String) (days : Nat) :
    List (String × PriceChange) :=
  (collect_overview wb tickers days).changes

/-- Header row of the Summary table (src/app.py line 339). -/
def summary_headers : List String :=
  ["Ticker", "Start Price", "Current Price", "Change", "Change %"]

/-- Comparison used by `sorted(price_changes.items(), key=..change_pct,
reverse=True)` at src/app.py line 347: descending by `change_pct`,
stable. -/
def change_pct_desc (a b : String × PriceChange) : Bool :=
  decide (b.2.change_pct ≤ a.2.change_pct)

/-- The sorted order in which the Summary rows are written. -/
def summary_sorted (entries : List (String × PriceChange)) :
    List (String × PriceChange) :=
  entries.mergeSort change_pct_desc

/-- One written Summary row (src/app.py lines 348-357). -/
def to_summary_row (e : String × PriceChange) : SummaryRow :=
  { ticker := e.1,
    start_price := e.2.first_close,
    current_price := e.2.last_close,
    change := e.2.change,
    change_pct_display := e.2.change_pct / 100 }

/-- The full Summary data table. -/
def summary_table (entries : List (String × PriceChange)) : List SummaryRow :=
  (summary_sorted entries).map to_summary_row

/-- Model of `update_overview_sheet` (src/app.py lines 195-368). When the
file is absent, `load_workbook` raises and the exception is caught at
line 367, leaving everything untouched. Otherwise the Overview sheet is
deleted and rebuilt from the ticker loop, and the Summary table is
written only when the `price_changes` dict is non-empty AND a sheet named
`"Summary"` is present (line 328); otherwise the Summary sheet is left
exactly as it was. -/
def update_overview_sheet (wb : Workbook) (tickers : List String)
    (days : Nat) (now : String) : Workbook :=
  if wb.exists_ = false then wb
  else
    let acc := collect_overview wb tickers days
    let wb1 := { wb with
      overview := some { days := days, generatedAt := now, sections := acc.sections } }
    if acc.changes ≠ [] then
      match wb1.summary with
      | some _ =>
        { wb1 with summary := some { lastUpdated := now, table := summary_table acc.changes } }
      | none => wb1
    else wb1

-- ### MetaTrader 5 environment and fetch

/-- State of the MetaTrader 5 terminal session held by the script. -/
inductive Session
  | closed
  | opened
deriving Repr, DecidableEq

/-- Model of `mt5.shutdown()`: the session is released whatever state it
was in (shutting down an unopened session is a no-op that still leaves it
closed). -/
def mt5_shutdown (_s : Session) : Session := Session.closed

/-- One raw rate as returned by `mt5.copy_rates_from`: the base columns
before the derived ones are added. -/
structure RawRate where
  time : Nat
  op : Rat
  hi : Rat
  lo : Rat
  cl : Rat
  tick_volume : Int
  spread : Int
  real_volume : Int
deriving Repr, DecidableEq

/-- Model of src/app.py lines 72-82: turn the raw rates into the
dataframe with the derived columns `range`, `daily_change`,
`daily_change_pct`. -/
def process_rates (rs : List RawRate) : List Candle :=
  rs.map fun r =>
    { time := r.time, open_ := r.op, high := r.hi, low := r.lo, close := r.cl,
      range := r.hi - r.lo,
      daily_change := r.cl - r.op,
      daily_change_pct := (r.cl - r.op) / r.op * 100,
      tick_volume := r.tick_volume, spread := r.spread,
      real_volume := r.real_volume }

/-- Environment describing what the MetaTrader 5 terminal would answer on
this run: whether `mt5.initialize()` succeeds, whether `mt5.account_info()`
returns an account, which symbols `mt5.symbol_info` recognizes, the rates
`mt5.copy_rates_from` returns per symbol, the symbols for which the fetch
body raises an exception, and the current wall-clock timestamp string. -/
structure MT5Env where
  initOk : Bool
  accountOk : Bool
  known : List String
  rates : List (String × List RawRate)
  raisesFor : List String
  now : String
deriving Repr, DecidableEq

/-- Rates the terminal returns for a symbol. -/
def ratesFor (env : MT5Env) (ticker : String) : List RawRate :=
  match env.rates.find? (fun p => p.1 = ticker) with
  | some p => p.2
  | none => []

/-- Model of `initialize_mt5` (src/app.py lines 31-49). If
`mt5.initialize()` fails, a `RuntimeError` is raised and caught by the
surrounding handler, and no session was ever opened. If it succeeds but
`mt5.account_info()` returns `None`, the code calls `mt5.shutdown()` at
line 41 before raising, so the session ends closed. On success the
session stays open and `True` is returned. The source name is
`initialize_mt5`. -/
def init_mt5 (env : MT5Env) : Bool × Session :=
  if env.initOk = false then (false, Session.closed)
  else if env.accountOk = false then (false, mt5_shutdown Session.opened)
  else (true, Session.opened)

/-- Model of `fetch_market_data` (src/app.py lines 51-89). The Boolean
returned by `initialize_mt5` is ignored (line 54 discards it). When the
session is not connected or the symbol is unknown, `mt5.symbol_info`
returns `None` and the code shuts down and returns an empty dataframe
(lines 58-61). When the body raises, the handler shuts down and returns
an empty dataframe (lines 83-89). Otherwise `mt5.shutdown()` runs at line
65 before the emptiness check, and the (possibly empty) processed
dataframe is returned. The second component is the session state at
return. -/
def fetch_market_data (env : MT5Env) (ticker : String) : List Candle × Session :=
  let s0 := (init_mt5 env).2
  if s0 = Session.closed ∨ ticker ∉ env.known then
    ([], mt5_shutdown s0)
  else if ticker ∈ env.raisesFor then
    ([], mt5_shutdown s0)
  else
    let rs := ratesFor env ticker
    let s1 := mt5_shutdown s0
    if rs = [] then ([], s1)
    else (process_rates rs, s1)

/-- One iteration of the ticker loop in `main` (src/app.py lines
383-387): fetch, and only when the fetched dataframe is non-empty, append
it to the data sheet and refresh the registry timestamp. -/
def process_ticker (env : MT5Env) (st : Workbook) (ticker : String) : Workbook :=
  let df := (fetch_market_data env ticker).1
  if df = [] then st
  else update_ticker_status ticker (append_data_to_sheet df ticker st) env.now ""

/-- Model of `main` (src/app.py lines 370-394): ensure the workbook
exists, read the tickers (an unreadable registry yields `[]` via the
handler at line 162), stop early when there are none, otherwise process
every ticker and rebuild the overview with `days=15`. -/
def main_run (env : MT5Env) (wb : Workbook) : Workbook :=
  let wb1 := ensure_workbook_exists wb "XAUUSDm" env.now
  let tickers :=
    match wb1.tickersSheet with
    | some t => read_tickers t
    | none => []
  if tickers = [] then wb1
  else
    let wb2 := tickers.foldl (process_ticker env) wb1
    update_overview_sheet wb2 tickers 15 env.now

-- ### Shared helper lemmas and concrete fixtures

/-- Times of the merged series carry no duplicates: the dedup pass makes
them distinct and sorting only permutes them. -/
theorem merge_times_nodup (S B : List Candle) : (timesOf (merge S B)).Nodup := by
  have hperm :
      (timesOf (sort_values_time (drop_duplicates_by_time (S ++ B)))).Perm
        (timesOf (drop_duplicates_by_time (S ++ B))) :=
    (sort_values_time_perm (drop_duplicates_by_time (S ++ B))).map Candle.time
  exact hperm.symm.nodup (dedup_aux_times_nodup (S ++ B) [])

/-- The merged series is a permutation of the deduplicated concatenation. -/
theorem merge_perm_dedup (S B : List Candle) :
    (merge S B).Perm (drop_duplicates_by_time (S ++ B)) :=
  sort_values_time_perm (drop_duplicates_by_time (S ++ B))

/-- A fold whose step ignores its second argument and returns the
accumulator is the identity. -/
theorem foldl_fixed {α β : Type} (f : α → β → α) (hf : ∀ a b, f a b = a) :
    ∀ (l : List β) (x : α), l.foldl f x = x := by
  intro l
  induction l with
  | nil => intro x; rfl
  | cons b rest ih => intro x; simp [List.foldl_cons, hf, ih]

/-- Candle fixture with a given time and close (the other columns are
fixed arbitrary values). -/
def mkC (t : Nat) (cl : Rat) : Candle :=
  { time := t, open_ := 1, high := 2, low := 0, close := cl, range := 2,
    daily_change := 0, daily_change_pct := 0, tick_volume := 1, spread := 1,
    real_volume := 1 }

/-- The record already stored for time 1 (close 10). -/
def cOld : Candle := mkC 1 10

/-- The freshly fetched record for the same time 1 (revised close 20). -/
def cNew : Candle := mkC 1 20

/-- Concrete merge of a one-row existing series with a one-row incoming
batch sharing the same time: the existing row is the one kept, because
`drop_duplicates` keeps the first occurrence and the existing rows come
first in the concatenation. -/
theorem merge_single_overlap : merge [cOld] [cNew] = [cOld] := by
  have h1 : drop_duplicates_by_time ([cOld] ++ [cNew]) = [cOld] := by decide
  rw [merge, h1]
  exact List.mergeSort_of_sorted (List.pairwise_singleton _ _)

/-- Three-candle strictly ascending series fixture. -/
def W3 : List Candle := [mkC 1 10, mkC 2 20, mkC 3 30]

/-- Registry fixture with a `Status` column: rows A/Active, B/Inactive,
C/no status. -/
def statusTable : TickersTable :=
  { hasStatusColumn := true
    rows :=
      [ { ticker := some "A", description := none, status := some "Active", lastUpdated := none },
        { ticker := some "B", description := none, status := some "Inactive", lastUpdated := none },
        { ticker := some "C", description := none, status := none, lastUpdated := none } ] }

/-- Registry fixture without a `Status` column: rows A, B, blank. -/
def noStatusTable : TickersTable :=
  { hasStatusColumn := false
    rows :=
      [ { ticker := some "A", description := none, status := none, lastUpdated := none },
        { ticker := some "B", description := none, status := none, lastUpdated := none },
        { ticker := none, description := none, status := none, lastUpdated := none } ] }

/-- Environment in which `mt5.initialize()` fails on every call. -/
def env0 : MT5Env :=
  { initOk := false, accountOk := true, known := ["AAA"], rates := [],
    raisesFor := [], now := "T" }

/-- Existing workbook with one registered ticker `AAA`, no data sheets,
no Overview sheet, and a pristine Summary sheet. -/
def wb0 : Workbook :=
  { exists_ := true
    tickersSheet := some
      { hasStatusColumn := false
        rows := [{ ticker := some "AAA", description := none, status := none,
                   lastUpdated := none }] }
    dataSheets := []
    overview := none
    summary := some { lastUpdated := "S", table := [] } }

-- ### Claim theorems

/-- C1 counterexample: the claim says the merge is last-write-wins (the
incoming record supersedes the existing one at a shared time). On the
code it is first-write-wins: with an existing row and an incoming row at
the same time but different close, `merge` keeps the existing row, not
the incoming one, because `pd.concat([existing_df, df])` puts the
existing rows first and `drop_duplicates(subset=["time"])` defaults to
`keep="first"`. -/
theorem merge_keeps_existing_on_overlap :
    cOld.time = cNew.time ∧ cOld ≠ cNew ∧
    merge [cOld] [cNew] = [cOld] ∧ merge [cOld] [cNew] ≠ [cNew] := by
  refine ⟨rfl, by decide, merge_single_overlap, ?_⟩
  rw [merge_single_overlap]
  decide

/-- C1 amended: for every existing series S and incoming batch B, the
merge keeps exactly one entry per distinct time of S ++ B, and the entry
kept for each time is the first occurrence of that time in the
concatenation existing-then-incoming — so when a time appears in both,
the existing (S) record supersedes the incoming one, not the reverse. -/
theorem merge_spec (S B : List Candle) :
    (timesOf (merge S B)).Nodup ∧
    (∀ t, t ∈ timesOf (merge S B) ↔ t ∈ timesOf (S ++ B)) ∧
    (∀ c, c ∈ merge S B →
      (S ++ B).find? (fun d => decide (d.time = c.time)) = some c) := by
  refine ⟨merge_times_nodup S B, ?_, ?_⟩
  · intro t
    have hperm :
        (timesOf (merge S B)).Perm (timesOf (drop_duplicates_by_time (S ++ B))) :=
      (merge_perm_dedup S B).map Candle.time
    rw [hperm.mem_iff, drop_duplicates_by_time, dedup_aux_times_mem]
    simp
  · intro c hc
    have hcd : c ∈ drop_duplicates_by_time (S ++ B) :=
      (merge_perm_dedup S B).mem_iff.mp hc
    exact dedup_aux_keeps_first hcd

/-- C1 amended, witness: at the concrete one-row overlap the merged
series has distinct times and the record kept for the shared time is the
first occurrence in existing-then-incoming order, i.e. the existing row. -/
theorem merge_spec_witness :
    (timesOf (merge [cOld] [cNew])).Nodup ∧
    ([cOld] ++ [cNew]).find? (fun d => decide (d.time = cOld.time)) = some cOld := by
  refine ⟨(merge_spec [cOld] [cNew]).1, ?_⟩
  refine (merge_spec [cOld] [cNew]).2.2 cOld ?_
  rw [merge_single_overlap]
  simp

/-- C3: for every existing series S and incoming batch B, the merged
series written back to the data sheet is sorted strictly ascending by
time, with no duplicate time values. -/
theorem merge_result_strictly_ascending (S B : List Candle) :
    strictlyAscending (merge S B) ∧ (timesOf (merge S B)).Nodup := by
  refine ⟨?_, merge_times_nodup S B⟩
  exact strict_of_le_of_times_nodup
    (sort_values_time_sorted (drop_duplicates_by_time (S ++ B)))
    (merge_times_nodup S B)

/-- C2 counterexample: the claim says a failed source initialization
aborts the entire run with no instruments processed. On the code it does
not: with `mt5.initialize()` failing on every call, `main` still iterates
all registered tickers (each fetch merely returns an empty dataframe,
because `fetch_market_data` ignores the Boolean returned by
`initialize_mt5`) and still proceeds to rebuild the Overview sheet, so
the final workbook differs from what an aborted run would leave behind. -/
theorem init_failure_does_not_abort :
    env0.initOk = false ∧
    main_run env0 wb0 ≠ ensure_workbook_exists wb0 "XAUUSDm" env0.now ∧
    (main_run env0 wb0).overview = some { days := 15, generatedAt := "T", sections := [] } := by
  refine ⟨rfl, by decide, by decide⟩

/-- C2 amended: a failed initialization (initialize failing, or no
account info) is caught and logged inside `initialize_mt5` rather than
crashing, but it does not abort the run: every fetch then returns an
empty dataframe with the session closed, each per-ticker step leaves the
workbook unchanged (no data appended, no registry timestamp update), and
the run still continues into the Overview rebuild exactly as if every
fetch had come back empty. -/
theorem init_failure_run_continues (env : MT5Env) (wb : Workbook)
    (h : env.initOk = false ∨ env.accountOk = false) :
    (∀ t, fetch_market_data env t = ([], Session.closed)) ∧
    (∀ st t, process_ticker env st t = st) ∧
    main_run env wb =
      (let wb1 := ensure_workbook_exists wb "XAUUSDm" env.now
       let tickers :=
         match wb1.tickersSheet with
         | some tt => read_tickers tt
         | none => []
       if tickers = [] then wb1 else update_overview_sheet wb1 tickers 15 env.now) := by
  have hinit : (init_mt5 env).2 = Session.closed := by
    rcases h with h | h <;> simp [init_mt5, h, mt5_shutdown]
  have hfetch : ∀ t, fetch_market_data env t = ([], Session.closed) := by
    intro t
    simp [fetch_market_data, hinit, mt5_shutdown]
  have hproc : ∀ st t, process_ticker env st t = st := by
    intro st t
    simp [process_ticker, hfetch t]
  refine ⟨hfetch, hproc, ?_⟩
  unfold main_run
  simp only [foldl_fixed (process_ticker env) (fun a b => hproc a b)]

/-- C2 amended, witness: in the concrete failed-initialization
environment the fetch for the registered ticker comes back empty with the
session closed, and the run still ends in the Overview rebuild over the
unchanged workbook. -/
theorem init_failure_run_continues_witness :
    fetch_market_data env0 "AAA" = ([], Session.closed) ∧
    main_run env0 wb0 = update_overview_sheet wb0 ["AAA"] 15 "T" := by
  have H := init_failure_run_continues env0 wb0 (Or.inl rfl)
  refine ⟨H.1 "AAA", ?_⟩
  rw [H.2.2]
  decide

/-- C4: for a series S (strictly ascending by time, the stored-series
invariant) and any days count, the overview window is exactly the
trailing min(days, length S) entries of S, still in ascending time
order. -/
theorem overview_window_spec (S : List Candle) (days : Nat)
    (h : strictlyAscending S) :
    overview_window S days = S.drop (S.length - days) ∧
    (overview_window S days).length = min days S.length ∧
    strictlyAscending (overview_window S days) := by
  have he : overview_window S days = S.drop (S.length - days) := by
    rw [overview_window, tail_n, sort_values_time_of_sorted h]
  refine ⟨he, ?_, ?_⟩
  · rw [he, List.length_drop]
    omega
  · rw [he]
    exact List.Pairwise.drop h

/-- C4 witness: on the concrete three-entry series with days = 2 the
window is the last two entries, of length min 2 3 = 2, in ascending
order. -/
theorem overview_window_spec_witness :
    overview_window W3 2 = W3.drop 1 ∧
    (overview_window W3 2).length = min 2 W3.length ∧
    strictlyAscending (overview_window W3 2) := by
  have H := overview_window_spec W3 2 (by unfold strictlyAscending; decide)
  exact ⟨H.1, H.2.1, H.2.2⟩

/-- C5: the per-instrument price-change summary entry is computed exactly
when the window has at least two rows, and then from its literal first
and last rows: change = last close - first close and change_pct =
change / first close * 100; a window with fewer than two rows produces no
entry and so is omitted from the cross-instrument summary. -/
theorem compute_price_change_spec (W : List Candle) :
    (∀ (h : W ≠ []), 2 ≤ W.length →
      compute_price_change W = some
        { first_close := (W.head h).close
          last_close := (W.getLast h).close
          change := (W.getLast h).close - (W.head h).close
          change_pct := ((W.getLast h).close - (W.head h).close) / (W.head h).close * 100 }) ∧
    (W.length < 2 → compute_price_change W = none) := by
  match W with
  | [] =>
    refine ⟨fun h => absurd rfl h, fun _ => rfl⟩
  | [a] =>
    refine ⟨fun h hlen => by simp at hlen, fun _ => rfl⟩
  | a :: b :: rest =>
    refine ⟨fun h hlen => ?_, fun hlen => by simp at hlen; omega⟩
    simp only [compute_price_change, List.head_cons]
    rw [List.getLast_cons (List.cons_ne_nil b rest)]

/-- C5 witness: on the concrete three-row window the entry is built from
the first close 10 and last close 30, with change 20 and change_pct
200. -/
theorem compute_price_change_spec_witness :
    compute_price_change W3 = some
      { first_close := 10, last_close := 30, change := 20, change_pct := 200 } := by
  have H := (compute_price_change_spec W3).1 (by decide) (by decide)
  rw [H]
  norm_num [W3, mkC]

/-- C6: listing the registry with a `Status` column keeps, in table
order, exactly the (non-blank) tickers of the rows whose status cell is
the exact string Active; without a `Status` column it keeps, in table
order, the tickers of all rows whose ticker cell is non-blank. -/
theorem read_tickers_spec (t : TickersTable) :
    (t.hasStatusColumn = true →
      read_tickers t =
        t.rows.filterMap (fun r => if r.status = some "Active" then r.ticker else none)) ∧
    (t.hasStatusColumn = false →
      read_tickers t = t.rows.filterMap TickerRow.ticker) := by
  constructor
  · intro hs
    rw [read_tickers, if_pos (by simp [hs])]
    induction t.rows with
    | nil => rfl
    | cons r rest ih =>
      by_cases hr : r.status = some "Active"
      · simp [List.filter_cons, List.filterMap_cons, hr, ih]
      · simp [List.filter_cons, List.filterMap_cons, hr, ih]
  · intro hs
    rw [read_tickers, if_neg (by simp [hs])]

/-- C6 witness: with a Status column and rows A/Active, B/Inactive, C/no
status, exactly A is listed; without a Status column and rows A, B,
blank, exactly A and B are listed. -/
theorem read_tickers_spec_witness :
    read_tickers statusTable = ["A"] ∧ read_tickers noStatusTable = ["A", "B"] := by
  constructor
  · rw [(read_tickers_spec statusTable).1 rfl]
    decide
  · rw [(read_tickers_spec noStatusTable).2 rfl]
    decide

theorem change_pct_desc_trans (a b c : String × PriceChange)
    (h1 : change_pct_desc a b = true) (h2 : change_pct_desc b c = true) :
    change_pct_desc a c = true := by
  simp only [change_pct_desc, decide_eq_true_eq] at *
  exact le_trans h2 h1

theorem change_pct_desc_total (a b : String × PriceChange) :
    (change_pct_desc a b || change_pct_desc b a) = true := by
  simp only [change_pct_desc, Bool.or_eq_true, decide_eq_true_eq]
  exact le_total b.2.change_pct a.2.change_pct

/-- C7: the cross-instrument summary table has the header columns Ticker,
Start Price, Current Price, Change, Change %, and its data rows are the
collected price-change entries — one row per entry, a permutation of
them — arranged in descending order of change_pct. -/
theorem summary_table_spec (entries : List (String × PriceChange)) :
    summary_headers = ["Ticker", "Start Price", "Current Price", "Change", "Change %"] ∧
    (summary_sorted entries).Perm entries ∧
    List.Pairwise (fun a b : String × PriceChange => b.2.change_pct ≤ a.2.change_pct)
      (summary_sorted entries) ∧
    summary_table entries = (summary_sorted entries).map to_summary_row ∧
    (summary_table entries).length = entries.length := by
  refine ⟨rfl, List.mergeSort_perm entries change_pct_desc, ?_, rfl, ?_⟩
  · have hs := List.sorted_mergeSort change_pct_desc_trans change_pct_desc_total entries
    refine hs.imp ?_
    intro a b hab
    simpa [change_pct_desc] using hab
  · simp [summary_table, summary_sorted, List.length_mergeSort]

/-- C8: merging an empty incoming batch is a no-op. The early return at
src/app.py lines 93-95 leaves the workbook untouched for an empty
dataframe; the pure merge also satisfies merge(S, []) = S for every
well-formed (strictly ascending) series S; and in the main loop a ticker
whose fetch comes back empty leaves the workbook state unchanged
(src/app.py lines 383-387 skip the append and the registry update). -/
theorem merge_empty_noop :
    (∀ (wb : Workbook) (ticker : String), append_data_to_sheet [] ticker wb = wb) ∧
    (∀ S : List Candle, strictlyAscending S → merge S [] = S) ∧
    (∀ (env : MT5Env) (st : Workbook) (t : String),
      (fetch_market_data env t).1 = [] → process_ticker env st t = st) := by
  refine ⟨?_, ?_, ?_⟩
  · intro wb ticker
    simp [append_data_to_sheet]
  · intro S hS
    rw [merge, List.append_nil, drop_duplicates_by_time,
      dedup_aux_eq_self (times_nodup_of_strict hS) (by simp)]
    exact sort_values_time_of_sorted hS
  · intro env st t h
    simp [process_ticker, h]

/-- C8 witness: at the concrete workbook, series, and
failed-initialization environment, appending an empty batch and a
per-ticker step with an empty fetch are both identities, and merging the
three-row series with the empty batch returns it unchanged. -/
theorem merge_empty_noop_witness :
    append_data_to_sheet [] "AAA" wb0 = wb0 ∧
    merge W3 [] = W3 ∧
    process_ticker env0 wb0 "AAA" = wb0 := by
  refine ⟨merge_empty_noop.1 wb0 "AAA", ?_, ?_⟩
  · exact merge_empty_noop.2.1 W3 (by unfold strictlyAscending; decide)
  · exact merge_empty_noop.2.2 env0 wb0 "AAA" (by decide)

/-- C9: every invocation of the fetch operation ends with the terminal
session released, on every exit path — failed initialization, unknown
symbol, exception during the fetch body, empty rate result, and
successful fetch alike. -/
theorem fetch_releases_session (env : MT5Env) (ticker : String) :
    (fetch_market_data env ticker).2 = Session.closed := by
  simp only [fetch_market_data, mt5_shutdown]
  split_ifs <;> rfl

/-- C10: the Summary sheet is created only when the workbook file is
first created (`ensure_workbook_exists` writes it exactly when the file
did not exist), and the summary table is written by the overview rebuild
only when at least one price-change entry was collected AND a sheet named
Summary is present in the workbook; in every other case — in particular
when the Summary sheet is absent — the Summary sheet is left exactly as
it was, with no summary output produced. -/
theorem summary_write_condition (wb : Workbook) (tickers : List String)
    (days : Nat) (now dft : String) :
    ((ensure_workbook_exists wb dft now).summary =
      if wb.exists_ then wb.summary else some { lastUpdated := now, table := [] }) ∧
    ((update_overview_sheet wb tickers days now).summary =
      if wb.exists_ ∧ price_changes_of wb tickers days ≠ [] ∧ wb.summary ≠ none
      then some { lastUpdated := now
                  table := summary_table (price_changes_of wb tickers days) }
      else wb.summary) := by
  constructor
  · unfold ensure_workbook_exists
    split_ifs <;> rfl
  · by_cases hex : wb.exists_
    · by_cases hch : (collect_overview wb tickers days).changes = []
      · simp [update_overview_sheet, price_changes_of, hex, hch]
      · cases hsum : wb.summary with
        | none => simp [update_overview_sheet, price_changes_of, hex, hch, hsum]
        | some s => simp [update_overview_sheet, price_changes_of, hex, hch, hsum]
    · simp only [Bool.not_eq_true] at hex
      simp [update_overview_sheet, price_changes_of, hex]
